import Mathlib

/-!
Verification of the OpenFront simulation/decision core.

This file gives a shallow embedding of the territory grid model, the two
combat/economy resolvers (`processAIAction` in `src/app/utils/ai.ts` and
`GameSimulator.executeAction` in the same file), the interactive client's
second-click attack/move flow (`handleCanvasClick` in `src/app/page.tsx`),
and the reinforcement-learning bookkeeping of the `NeuralAI` class
(legal-action enumeration, epsilon decay, replay buffer, reward), followed
by theorems settling the specification claims.

Modelling conventions:
* JavaScript numbers are embedded as exact integers (`ℤ`) or rationals
  (`ℚ`).  All modelled integer operations (`+`, `-`, comparisons,
  `Math.floor` of quotients by small integers) are exact in binary64 for
  the magnitudes the game produces; the products `troops * 0.7` /
  `troops * 0.8` and the literal `0.1` are embedded as exact rational
  arithmetic (`7*t/10`, `8*t/10`, `1/10`), the idealisation the spec
  itself states.
* In-place mutation of `territories[i]` is embedded by `updAt`, which
  rewrites the list element at index `i`; sequential mutations become
  sequential `updAt` applications, which reproduces JavaScript aliasing
  when source and target resolve to the same index.
* `Math.sqrt (dx*dx+dy*dy) ≤ r` on integer coordinates is embedded as
  `0 ≤ r ∧ dx*dx+dy*dy ≤ r*r`, which is equivalent for exact reals and
  holds for binary64 because the square root is correctly rounded and the
  compared quantities are small integers.
* Fields of `Territory` that no modelled function reads or writes
  (terrain `type`, `color`, `troopCapacity`, territory-level `gold`) are
  omitted.
-/

namespace OpenFront

/-- Owner record, as stored in `territory.owner` (`{ id, name, color }`). -/
structure TOwner where
  id : String
  name : String
  color : String
deriving DecidableEq, Repr

/-- The seven building kinds of the catalog in `ai.ts`. -/
inductive BuildingType where
  | fort
  | farm
  | tower
  | barracks
  | wall
  | mine
  | market
deriving DecidableEq, Repr

/-- A placed building: `{ type, level }`. -/
structure Building where
  type : BuildingType
  level : ℤ
deriving DecidableEq, Repr

/-- A grid cell.  Mirrors the `Territory` interface of `ai.ts` restricted
to the fields the modelled functions touch. -/
structure Territory where
  x : ℤ
  y : ℤ
  owner : Option TOwner
  troops : ℤ
  building : Option Building
  wall : Bool
  isSelected : Bool
deriving DecidableEq, Repr

/-- An acting player (`AIPlayer` in `ai.ts`); `gold?: number` is embedded
as an always-present integer. -/
structure AIPlayer where
  id : String
  name : String
  color : String
  gold : ℤ
deriving DecidableEq, Repr

/-- The three action tags of the decision records passed to the resolvers. -/
inductive ActionKind where
  | attack
  | defend
  | build
deriving DecidableEq, Repr

/-- A decision record `{ action, source?, target?, buildingType? }`. -/
structure Decision where
  action : ActionKind
  source : Option Territory
  target : Option Territory
  buildingType : Option BuildingType
deriving DecidableEq, Repr

/-- Translates `t.owner && t.owner.id === pid`. -/
def ownerIs (t : Territory) (pid : String) : Bool :=
  match t.owner with
  | some o => o.id == pid
  | none => false

/-- Translates `territories.findIndex (t => t.x === x && t.y === y)`, with the failed
lookup `-1` embedded as `none`. -/
def findTerritoryIdx (g : List Territory) (x y : ℤ) : Option ℕ :=
  g.findIdx? (fun t => t.x == x && t.y == y)

/-- In-place mutation `territories[i] = f territories[i]`; out-of-range
indices leave the list unchanged (the resolvers only reach it with indices
produced by a successful `findIndex`). -/
def updAt (g : List Territory) (i : ℕ) (f : Territory → Territory) : List Territory :=
  match g[i]? with
  | some t => g.set i (f t)
  | none => g

/-- The building cost table appearing (identically) in `processAIAction`,
`GameSimulator.executeAction` and `NeuralAI.getLegalActions`. -/
def buildingCosts : BuildingType → ℤ
  | .fort => 100
  | .farm => 150
  | .tower => 200
  | .barracks => 120
  | .wall => 80
  | .mine => 150
  | .market => 200

/-- Translates `target.building?.type === "fort" ? target.building.level : 0`. -/
def fortBonus (t : Territory) : ℤ :=
  match t.building with
  | some b => if b.type = .fort then b.level else 0
  | none => 0

/-- Function `processAIAction` (`src/app/utils/ai.ts`, lines 650–800): resolves one
attack / defend / build decision against the grid, also updating the acting
player's gold (the source mutates `aiPlayer.gold` in place; the model
returns the updated player).  The attack fraction is `0.7`
(`Math.floor(troops * 0.7)` embedded as `⌊7·troops/10⌋`). -/
def processAIAction (g : List Territory) (d : Decision) (p : AIPlayer) :
    List Territory × AIPlayer :=
  match d.action with
  | .attack =>
    match d.source, d.target with
    | some src, some tgt =>
      match findTerritoryIdx g src.x src.y, findTerritoryIdx g tgt.x tgt.y with
      | some ai, some ti =>
        match g[ai]?, g[ti]? with
        | some atk, some dfn =>
          let attackingTroops : ℤ := Int.fdiv (7 * atk.troops) 10
          let defenseBonus := fortBonus dfn
          let effectiveDefense := dfn.troops * (1 + defenseBonus)
          if effectiveDefense < attackingTroops then
            -- successful attack: capture, then destroy non-wall buildings,
            -- then deduct the attacking force from the source
            let g1 := updAt g ti (fun t =>
              { t with owner := some ⟨p.id, p.name, p.color⟩,
                       troops := attackingTroops - t.troops })
            let g2 := updAt g1 ti (fun t =>
              if t.building.isSome && !t.wall then { t with building := none } else t)
            let g3 := updAt g2 ai (fun t => { t with troops := t.troops - attackingTroops })
            (g3, p)
          else
            -- failed attack
            let g1 := updAt g ti (fun t =>
              { t with troops := t.troops - Int.fdiv attackingTroops (1 + defenseBonus) })
            let g2 := updAt g1 ai (fun t => { t with troops := t.troops - attackingTroops })
            (g2, p)
        | _, _ => (g, p)
      | _, _ => (g, p)
    | _, _ => (g, p)
  | .defend =>
    match d.target with
    | some tgt =>
      match findTerritoryIdx g tgt.x tgt.y with
      | some di => (updAt g di (fun t => { t with troops := t.troops + 5 }), p)
      | none => (g, p)
    | none => (g, p)
  | .build =>
    match d.target, d.buildingType with
    | some tgt, some bt =>
      match findTerritoryIdx g tgt.x tgt.y with
      | some bi =>
        let cost := buildingCosts bt
        -- `if (aiPlayer.gold && aiPlayer.gold >= cost)`: JavaScript
        -- truthiness makes gold 0 fail the first conjunct
        if p.gold ≠ 0 ∧ cost ≤ p.gold then
          let p' := { p with gold := p.gold - cost }
          if bt = .wall then
            (updAt g bi (fun t =>
              if t.owner = none then
                { t with wall := true,
                         owner := some ⟨p.id, p.name, p.color⟩,
                         troops := 0 }
              else t), p')
          else
            (updAt g bi (fun t =>
              if ownerIs t p.id then { t with building := some ⟨bt, 1⟩ } else t), p')
        else (g, p)
      | none => (g, p)
    | _, _ => (g, p)

/-- Method `GameSimulator.executeAction` (`src/app/utils/ai.ts`, lines 1232–1372):
the training simulator's resolver.  The attack fraction is `0.8`, the
source must be owned by the acting player with at least 2 troops, the
source is decremented before the outcome is decided, the outcome compares
the force against the raw target troops (no fort bonus), and captured
buildings are left in place. -/
def gsExecuteAction (g : List Territory) (a : Decision) (p : AIPlayer) :
    List Territory × AIPlayer :=
  match a.action with
  | .attack =>
    match a.source, a.target with
    | some src, some tgt =>
      match findTerritoryIdx g src.x src.y, findTerritoryIdx g tgt.x tgt.y with
      | some si, some ti =>
        match g[si]? with
        | some s =>
          if ownerIs s p.id = false ∨ s.troops < 2 then (g, p)
          else
            let attackingTroops : ℤ := Int.fdiv (8 * s.troops) 10
            let g1 := updAt g si (fun t => { t with troops := t.troops - attackingTroops })
            match g1[ti]? with
            | some tgt1 =>
              if tgt1.troops < attackingTroops then
                (updAt g1 ti (fun t =>
                  { t with owner := some ⟨p.id, p.name, p.color⟩,
                           troops := attackingTroops - t.troops }), p)
              else
                (updAt g1 ti (fun t => { t with troops := t.troops - attackingTroops }), p)
            | none => (g1, p)
        | none => (g, p)
      | _, _ => (g, p)
    | _, _ => (g, p)
  | .defend =>
    match a.target with
    | some tgt =>
      match findTerritoryIdx g tgt.x tgt.y with
      | some di =>
        match g[di]? with
        | some dt =>
          if ownerIs dt p.id then
            (updAt g di (fun t => { t with troops := t.troops + 5 }), p)
          else (g, p)
        | none => (g, p)
      | none => (g, p)
    | none => (g, p)
  | .build =>
    match a.target, a.buildingType with
    | some tgt, some bt =>
      match findTerritoryIdx g tgt.x tgt.y with
      | some bi =>
        let cost := buildingCosts bt
        if p.gold < cost then (g, p)
        else
          let p' := { p with gold := p.gold - cost }
          if bt = .wall then
            (updAt g bi (fun t =>
              if t.owner = none then
                { t with wall := true,
                         owner := some ⟨p.id, p.name, p.color⟩,
                         troops := 0 }
              else t), p')
          else
            (updAt g bi (fun t =>
              if ownerIs t p.id then { t with building := some ⟨bt, 1⟩ } else t), p')
      | none => (g, p)
    | _, _ => (g, p)

/-- Translates `selectedTerritory.building && selectedTerritory.building.type ===
"tower" ? level : 0` — the tower range bonus of the selected cell in
`handleCanvasClick`. -/
def towerRangeBonus (sel : Territory) : ℤ :=
  match sel.building with
  | some b => if b.type = .tower then b.level else 0
  | none => 0

/-- The second-click attack/move resolution of `handleCanvasClick`
(`src/app/page.tsx`, lines 913–1008): `selIdx` is the index of the
previously selected (player-owned) territory, `clkIdx` the index of the
clicked territory.  Walls are rejected up front; within range
(`2` plus the tower level of the source) a click on an own territory
moves `⌊troops·0.8⌋` troops, any other click attacks with
`Math.floor(troops / 2)` (fraction `0.5`); a capture destroys the target's
building.  The selection flag is cleared on every path. -/
def pageSecondClick (g : List Territory) (selIdx clkIdx : ℕ) (playerName : String) :
    List Territory :=
  match g[selIdx]?, g[clkIdx]? with
  | some sel, some tgtT =>
    if tgtT.wall then
      updAt g selIdx (fun t => { t with isSelected := false })
    else
      let hasRangeBonus : ℤ := towerRangeBonus sel
      let dx := sel.x - tgtT.x
      let dy := sel.y - tgtT.y
      let g' :=
        if 0 ≤ 2 + hasRangeBonus ∧ dx * dx + dy * dy ≤ (2 + hasRangeBonus) * (2 + hasRangeBonus) then
          if ownerIs tgtT "player1" then
            -- moving troops between own territories
            let troopsToMove := Int.fdiv (8 * sel.troops) 10
            if 0 < troopsToMove then
              let h1 := updAt g clkIdx (fun t => { t with troops := t.troops + troopsToMove })
              updAt h1 selIdx (fun t => { t with troops := t.troops - troopsToMove })
            else g
          else
            -- attacking enemy or neutral territory
            let defenseBonus := fortBonus tgtT
            let effectiveDefense := tgtT.troops * (1 + defenseBonus)
            let attackingTroops := Int.fdiv sel.troops 2
            if 0 < attackingTroops then
              if effectiveDefense < attackingTroops then
                let h1 := updAt g clkIdx (fun t =>
                  { t with owner := some ⟨"player1",
                                          if playerName = "" then "Player" else playerName,
                                          "#e63946"⟩,
                           troops := attackingTroops - t.troops })
                let h2 := updAt h1 selIdx (fun t => { t with troops := t.troops - attackingTroops })
                updAt h2 clkIdx (fun t =>
                  if t.building.isSome then { t with building := none } else t)
              else
                let h1 := updAt g clkIdx (fun t =>
                  { t with troops := t.troops - Int.fdiv attackingTroops (1 + defenseBonus) })
                updAt h1 selIdx (fun t => { t with troops := t.troops - attackingTroops })
            else g
        else g
      updAt g' selIdx (fun t => { t with isSelected := false })
  | _, _ => g

/-! ## NeuralAI (`src/unnamed/part_004`) -/

/-- Helper `NeuralAI.findAdjacentTerritories`: all non-wall cells within Euclidean
distance `range` of `c`, excluding `c` itself (`distance > 0`). -/
def findAdjacentTerritories (g : List Territory) (c : Territory) (range : ℤ) :
    List Territory :=
  g.filter (fun t =>
    let dx := t.x - c.x
    let dy := t.y - c.y
    let d2 := dx * dx + dy * dy
    decide (0 ≤ range ∧ d2 ≤ range * range ∧ 0 < d2) && !t.wall)

/-- Helper `NeuralAI.findNearbyEmptyTerritories`: as above, additionally requiring
the cell to have no owner. -/
def findNearbyEmptyTerritories (g : List Territory) (c : Territory) (range : ℤ) :
    List Territory :=
  g.filter (fun t =>
    let dx := t.x - c.x
    let dy := t.y - c.y
    let d2 := dx * dx + dy * dy
    decide (0 ≤ range ∧ d2 ≤ range * range ∧ 0 < d2) && t.owner.isNone && !t.wall)

/-- The `Object.entries(buildingCosts)` list of `getLegalActions`, in
insertion order. -/
def costsList : List (BuildingType × ℤ) :=
  [(.fort, 100), (.farm, 150), (.tower, 200), (.barracks, 120),
   (.wall, 80), (.mine, 150), (.market, 200)]

/-- Method `NeuralAI.getLegalActions` (`src/unnamed/part_004`, lines 623–746):
attacks from every owned source with at least 5 troops to every adjacent
non-wall cell not owned by the player and holding strictly fewer troops;
defends on every border territory; builds (non-wall kinds) on every
un-built, non-wall owned territory per affordable kind, plus wall builds
on empty cells near borders, all gated by `gold ≥ 80`. -/
def getLegalActions (g : List Territory) (p : AIPlayer) : List Decision :=
  let ownedTerritories := g.filter (fun t => ownerIs t p.id)
  let attackActions := ownedTerritories.flatMap (fun source =>
    if source.troops < 5 then []
    else
      (findAdjacentTerritories g source 2).filterMap (fun target =>
        if ownerIs target p.id then none
        else if target.wall then none
        else if target.troops < source.troops then
          some ⟨.attack, some source, some target, none⟩
        else none))
  let borderTerritories := ownedTerritories.filter (fun t =>
    (findAdjacentTerritories g t 2).any (fun n =>
      match n.owner with
      | some o => o.id != p.id
      | none => false))
  let defendActions := borderTerritories.map (fun t =>
    (⟨.defend, none, some t, none⟩ : Decision))
  let buildActions :=
    if 80 ≤ p.gold then
      let buildableTerritories := ownedTerritories.filter (fun t =>
        t.building.isNone && !t.wall)
      let emptyNearbyTerritories := borderTerritories.flatMap (fun b =>
        findNearbyEmptyTerritories g b 2)
      let perTerritory := buildableTerritories.flatMap (fun t =>
        costsList.filterMap (fun bc =>
          if p.gold < bc.2 then none
          else if bc.1 = .wall then none
          else some (⟨.build, none, some t, some bc.1⟩ : Decision)))
      let wallActions :=
        if 80 ≤ p.gold then
          emptyNearbyTerritories.map (fun t =>
            (⟨.build, none, some t, some .wall⟩ : Decision))
        else []
      perTerritory ++ wallActions
    else []
  attackActions ++ defendActions ++ buildActions

/-- One replay-buffer entry `{ state, action, reward, nextState, done }`. -/
structure Experience where
  state : List ℚ
  action : List ℤ
  reward : ℚ
  nextState : List ℚ
  done : Bool
deriving DecidableEq, Repr

/-- Capacity `replayMemorySize = 10000`. -/
def replayMemorySize : ℕ := 10000

/-- Method `NeuralAI.addExperience`: push the entry, then `shift()` the oldest one
off when the buffer exceeds its capacity. -/
def addExperience (mem : List Experience) (e : Experience) : List Experience :=
  let m := mem ++ [e]
  if replayMemorySize < m.length then m.tail else m

/-- Constant `epsilonMin = 0.1`. -/
def epsilonMin : ℚ := 1 / 10

/-- Constant `epsilonDecay = 0.995`. -/
def epsilonDecay : ℚ := 199 / 200

/-- Exploration rate after `n` completed batch updates: `epsilon` starts at
`1.0` and each completed `trainOnBatch` call runs
`if (epsilon > epsilonMin) epsilon *= epsilonDecay`. -/
def epsilonAfter : ℕ → ℚ
  | 0 => 1
  | n + 1 =>
    let e := epsilonAfter n
    if epsilonMin < e then e * epsilonDecay else e

/-- A pair-of-territories-and-player snapshot, the argument shape of
`NeuralAI.calculateReward`. -/
structure SimState where
  territories : List Territory
  player : AIPlayer
deriving Repr

/-- Number of territories owned by the snapshot's player. -/
def territoryCountOf (s : SimState) : ℤ :=
  ((s.territories.filter (fun t => ownerIs t s.player.id)).length : ℤ)

/-- Total troops on territories owned by the snapshot's player
(`reduce` with initial value 0). -/
def troopCountOf (s : SimState) : ℤ :=
  s.territories.foldl (fun sum t => if ownerIs t s.player.id then sum + t.troops else sum) 0

/-- Number of buildings on territories owned by the snapshot's player. -/
def buildingCountOf (s : SimState) : ℤ :=
  s.territories.foldl
    (fun sum t => if ownerIs t s.player.id && t.building.isSome then sum + 1 else sum) 0

/-- Method `NeuralAI.calculateReward` (`src/unnamed/part_004`, lines 499–560):
`territoryDiff*10 + goldDiff*0.1 + troopDiff*0.5 + buildingDiff*5`. -/
def calculateReward (prevState currentState : SimState) : ℚ :=
  let territoryDiff := territoryCountOf currentState - territoryCountOf prevState
  let goldDiff := currentState.player.gold - prevState.player.gold
  let troopDiff := troopCountOf currentState - troopCountOf prevState
  let buildingDiff := buildingCountOf currentState - buildingCountOf prevState
  (territoryDiff : ℚ) * 10 + (goldDiff : ℚ) * (1 / 10) +
    (troopDiff : ℚ) * (1 / 2) + (buildingDiff : ℚ) * 5

/-- The per-episode reward total of `GameSimulator.runEpisode`
(`src/app/utils/ai.ts`, lines 1000–1105): step rewards accumulate into
`totalReward`, and a one-time `+100` bonus is added when the neural player
ends the episode as the winner. -/
def runEpisodeTotalReward (stepRewards : List ℚ) (isWinner : Bool) : ℚ :=
  stepRewards.foldl (· + ·) 0 + (if isWinner then 100 else 0)

/-! ## Helper lemmas about `updAt` -/

theorem set_of_getElem? {α : Type} :
    ∀ (l : List α) (i : ℕ) (a : α), l[i]? = some a → l.set i a = l
  | [], i, a, h => by simp at h
  | x :: xs, 0, a, h => by
    simp only [List.getElem?_cons_zero, Option.some.injEq] at h
    simp [h]
  | x :: xs, i + 1, a, h => by
    simp only [List.getElem?_cons_succ] at h
    simp [List.set_cons_succ, set_of_getElem? xs i a h]

theorem updAt_getElem?_self {g : List Territory} {i : ℕ} {t : Territory}
    (h : g[i]? = some t) (f : Territory → Territory) :
    (updAt g i f)[i]? = some (f t) := by
  have hlt : i < g.length := by
    by_contra hge
    rw [List.getElem?_eq_none (Nat.le_of_not_lt hge)] at h
    exact Option.noConfusion h
  unfold updAt
  rw [h]
  exact List.getElem?_set_self hlt

theorem updAt_getElem?_ne {g : List Territory} {i j : ℕ}
    (hij : i ≠ j) (f : Territory → Territory) :
    (updAt g i f)[j]? = g[j]? := by
  unfold updAt
  cases hi : g[i]? with
  | none => rfl
  | some t => exact List.getElem?_set_ne hij

theorem updAt_congr_id {g : List Territory} {i : ℕ} {f : Territory → Territory}
    (h : ∀ t, g[i]? = some t → f t = t) : updAt g i f = g := by
  unfold updAt
  cases ht : g[i]? with
  | none => rfl
  | some t =>
    show g.set i (f t) = g
    rw [h t ht]
    exact set_of_getElem? g i t ht

/-! ## Claim theorems -/

/-- Claim C2: In the interactive client's second-click flow (attacking
fraction `0.5`), attack resolution is the deterministic function
`pageSecondClick` of the grid: with source troops 10 (force 5) against 3
defending troops and no fort, the attack succeeds, the target's troops
become 2 and its owner becomes the attacker; against 3 defending troops
behind a level-1 fort (effective defense 6) the attack fails, the target's
troops become 1 and the source's troops become 5. -/
theorem pageSecondClick_attack_examples :
    pageSecondClick
        [⟨0, 0, some ⟨"player1", "Hero", "#e63946"⟩, 10, none, false, true⟩,
         ⟨1, 0, some ⟨"ai1", "AI Alpha", "#457b9d"⟩, 3, none, false, false⟩]
        0 1 "Hero"
      = [⟨0, 0, some ⟨"player1", "Hero", "#e63946"⟩, 5, none, false, false⟩,
         ⟨1, 0, some ⟨"player1", "Hero", "#e63946"⟩, 2, none, false, false⟩]
    ∧
    pageSecondClick
        [⟨0, 0, some ⟨"player1", "Hero", "#e63946"⟩, 10, none, false, true⟩,
         ⟨1, 0, some ⟨"ai1", "AI Alpha", "#457b9d"⟩, 3, some ⟨.fort, 1⟩, false, false⟩]
        0 1 "Hero"
      = [⟨0, 0, some ⟨"player1", "Hero", "#e63946"⟩, 5, none, false, false⟩,
         ⟨1, 0, some ⟨"ai1", "AI Alpha", "#457b9d"⟩, 1, some ⟨.fort, 1⟩, false, false⟩] := by
  constructor <;> decide

/-- Claim C1 (amended): For attacks with distinct resolved source and target
cells: `processAIAction` (attacking force `⌊0.7·troops⌋`) succeeds exactly
when the force exceeds the fort-adjusted defense
`target.troops·(1+fortLevel)`; on success the target's owner becomes the
attacker and its troops become `force − target.troops` (raw), on failure
the target loses `⌊force/(1+fortLevel)⌋` troops, and in both outcomes the
source loses the full force.  `GameSimulator.executeAction` (force
`⌊0.8·troops⌋`, requiring a player-owned source with ≥ 2 troops) instead
ignores forts entirely: it succeeds exactly when the force exceeds the raw
target troops, and on failure the target loses the full force. -/
theorem attack_resolution_amended :
    (∀ (g : List Territory) (p : AIPlayer) (src tgt atk dfn : Territory) (i j : ℕ),
      findTerritoryIdx g src.x src.y = some i →
      findTerritoryIdx g tgt.x tgt.y = some j →
      i ≠ j →
      g[i]? = some atk →
      g[j]? = some dfn →
      (dfn.troops * (1 + fortBonus dfn) < Int.fdiv (7 * atk.troops) 10 →
        ((processAIAction g ⟨.attack, some src, some tgt, none⟩ p).1)[j]? =
          some { dfn with
                 owner := some ⟨p.id, p.name, p.color⟩,
                 troops := Int.fdiv (7 * atk.troops) 10 - dfn.troops,
                 building := if dfn.building.isSome && !dfn.wall then none
                             else dfn.building } ∧
        ((processAIAction g ⟨.attack, some src, some tgt, none⟩ p).1)[i]? =
          some { atk with troops := atk.troops - Int.fdiv (7 * atk.troops) 10 }) ∧
      (¬ dfn.troops * (1 + fortBonus dfn) < Int.fdiv (7 * atk.troops) 10 →
        ((processAIAction g ⟨.attack, some src, some tgt, none⟩ p).1)[j]? =
          some { dfn with
                 troops := dfn.troops -
                   Int.fdiv (Int.fdiv (7 * atk.troops) 10) (1 + fortBonus dfn) } ∧
        ((processAIAction g ⟨.attack, some src, some tgt, none⟩ p).1)[i]? =
          some { atk with troops := atk.troops - Int.fdiv (7 * atk.troops) 10 }))
    ∧
    (∀ (g : List Territory) (p : AIPlayer) (src tgt s dfn : Territory) (i j : ℕ),
      findTerritoryIdx g src.x src.y = some i →
      findTerritoryIdx g tgt.x tgt.y = some j →
      i ≠ j →
      g[i]? = some s →
      g[j]? = some dfn →
      ownerIs s p.id = true →
      ¬ s.troops < 2 →
      (dfn.troops < Int.fdiv (8 * s.troops) 10 →
        ((gsExecuteAction g ⟨.attack, some src, some tgt, none⟩ p).1)[j]? =
          some { dfn with
                 owner := some ⟨p.id, p.name, p.color⟩,
                 troops := Int.fdiv (8 * s.troops) 10 - dfn.troops } ∧
        ((gsExecuteAction g ⟨.attack, some src, some tgt, none⟩ p).1)[i]? =
          some { s with troops := s.troops - Int.fdiv (8 * s.troops) 10 }) ∧
      (¬ dfn.troops < Int.fdiv (8 * s.troops) 10 →
        ((gsExecuteAction g ⟨.attack, some src, some tgt, none⟩ p).1)[j]? =
          some { dfn with troops := dfn.troops - Int.fdiv (8 * s.troops) 10 } ∧
        ((gsExecuteAction g ⟨.attack, some src, some tgt, none⟩ p).1)[i]? =
          some { s with troops := s.troops - Int.fdiv (8 * s.troops) 10 })) := by
  constructor
  · intro g p src tgt atk dfn i j h1 h2 hij hga hgj
    simp only [processAIAction, h1, h2, hga, hgj]
    constructor
    · intro hwin
      rw [if_pos hwin]
      dsimp only
      constructor
      · rw [updAt_getElem?_ne hij _,
            updAt_getElem?_self (updAt_getElem?_self hgj _) _]
        cases hb : dfn.building.isSome && !dfn.wall <;> simp [hb]
      · exact updAt_getElem?_self (t := atk)
          (by rw [updAt_getElem?_ne (Ne.symm hij), updAt_getElem?_ne (Ne.symm hij)]; exact hga) _
    · intro hlose
      rw [if_neg hlose]
      dsimp only
      constructor
      · rw [updAt_getElem?_ne hij _, updAt_getElem?_self hgj _]
      · exact updAt_getElem?_self (t := atk)
          (by rw [updAt_getElem?_ne (Ne.symm hij)]; exact hga) _
  · intro g p src tgt s dfn i j h1 h2 hij hgi hgj hown htr
    simp only [gsExecuteAction, h1, h2, hgi, hown, htr]
    have h1j : (updAt g i fun t => { t with troops := t.troops - Int.fdiv (8 * s.troops) 10 })[j]?
        = some dfn := by
      rw [updAt_getElem?_ne hij]; exact hgj
    constructor
    · intro hwin
      rw [if_neg (show ¬ (true = false ∨ False) by simp)]
      simp only [h1j]
      rw [if_pos hwin]
      dsimp only
      constructor
      · rw [updAt_getElem?_self h1j _]
      · rw [updAt_getElem?_ne (Ne.symm hij) _,
            updAt_getElem?_self hgi _]
    · intro hlose
      rw [if_neg (show ¬ (true = false ∨ False) by simp)]
      simp only [h1j]
      rw [if_neg hlose]
      dsimp only
      constructor
      · rw [updAt_getElem?_self h1j _]
      · rw [updAt_getElem?_ne (Ne.symm hij) _,
            updAt_getElem?_self hgi _]

/-- Claim C1 counterexample: At a concrete input to
`GameSimulator.executeAction` — source 10 troops (force 8), target 5
troops behind a level-1 fort (claimed effective defense 10) — the claim
predicts a failed attack leaving the owner unchanged, but the simulator
compares the force against the raw troop count and captures the
territory. -/
theorem attack_resolution_ce :
    Int.fdiv (8 * 10) 10 ≤ 5 * (1 + fortBonus ⟨1, 0, some ⟨"e1", "E", "#222222"⟩, 5, some ⟨.fort, 1⟩, false, false⟩) ∧
    ((gsExecuteAction
        [⟨0, 0, some ⟨"p1", "P", "#111111"⟩, 10, none, false, false⟩,
         ⟨1, 0, some ⟨"e1", "E", "#222222"⟩, 5, some ⟨.fort, 1⟩, false, false⟩]
        ⟨.attack,
         some ⟨0, 0, some ⟨"p1", "P", "#111111"⟩, 10, none, false, false⟩,
         some ⟨1, 0, some ⟨"e1", "E", "#222222"⟩, 5, some ⟨.fort, 1⟩, false, false⟩,
         none⟩
        ⟨"p1", "P", "#111111", 0⟩).1)[1]?.map Territory.owner
      = some (some ⟨"p1", "P", "#111111"⟩) := by
  constructor <;> decide

/-- Sample source cell: 10 troops, owned by player `p1`. -/
def sampleSource : Territory := ⟨0, 0, some ⟨"p1", "P", "#111111"⟩, 10, none, false, false⟩

/-- Sample target cell: 3 troops, no fort, owned by `e1`. -/
def sampleTarget : Territory := ⟨1, 0, some ⟨"e1", "E", "#222222"⟩, 3, none, false, false⟩

/-- Sample acting player `p1`. -/
def samplePlayer : AIPlayer := ⟨"p1", "P", "#111111", 0⟩

/-- Witness for the amended C1 theorem: both resolvers evaluated on a
concrete successful attack (source 10 troops, target 3 troops, no fort). -/
theorem attack_resolution_amended_witness :
    ((processAIAction [sampleSource, sampleTarget]
        ⟨.attack, some sampleSource, some sampleTarget, none⟩ samplePlayer).1)[1]? =
      some ⟨1, 0, some ⟨"p1", "P", "#111111"⟩, 4, none, false, false⟩ ∧
    ((processAIAction [sampleSource, sampleTarget]
        ⟨.attack, some sampleSource, some sampleTarget, none⟩ samplePlayer).1)[0]? =
      some ⟨0, 0, some ⟨"p1", "P", "#111111"⟩, 3, none, false, false⟩ ∧
    ((gsExecuteAction [sampleSource, sampleTarget]
        ⟨.attack, some sampleSource, some sampleTarget, none⟩ samplePlayer).1)[1]? =
      some ⟨1, 0, some ⟨"p1", "P", "#111111"⟩, 5, none, false, false⟩ ∧
    ((gsExecuteAction [sampleSource, sampleTarget]
        ⟨.attack, some sampleSource, some sampleTarget, none⟩ samplePlayer).1)[0]? =
      some ⟨0, 0, some ⟨"p1", "P", "#111111"⟩, 2, none, false, false⟩ := by
  have hp := (attack_resolution_amended.1 [sampleSource, sampleTarget] samplePlayer
      sampleSource sampleTarget sampleSource sampleTarget 0 1
      (by decide) (by decide) (by decide) (by decide) (by decide)).1 (by decide)
  have hg := (attack_resolution_amended.2 [sampleSource, sampleTarget] samplePlayer
      sampleSource sampleTarget sampleSource sampleTarget 0 1
      (by decide) (by decide) (by decide) (by decide) (by decide)
      (by decide) (by decide)).1 (by decide)
  exact ⟨hp.1, hp.2, hg.1, hg.2⟩

/-- Claim C5 (amended): On a successful attack, `processAIAction` destroys
the captured cell's building unless the cell is a wall, and the
interactive client (`handleCanvasClick`, which rejects wall targets up
front) always destroys it; `GameSimulator.executeAction`, however, leaves
the captured cell's building in place. -/
theorem capture_building_destruction_amended :
    (∀ (g : List Territory) (p : AIPlayer) (src tgt atk dfn : Territory) (i j : ℕ),
      findTerritoryIdx g src.x src.y = some i →
      findTerritoryIdx g tgt.x tgt.y = some j →
      i ≠ j →
      g[i]? = some atk →
      g[j]? = some dfn →
      dfn.troops * (1 + fortBonus dfn) < Int.fdiv (7 * atk.troops) 10 →
      (dfn.wall = false →
        ((processAIAction g ⟨.attack, some src, some tgt, none⟩ p).1)[j]?.map Territory.building =
          some none) ∧
      (dfn.wall = true →
        ((processAIAction g ⟨.attack, some src, some tgt, none⟩ p).1)[j]?.map Territory.building =
          some dfn.building))
    ∧
    (∀ (g : List Territory) (selIdx clkIdx : ℕ) (pn : String) (sel tgtT : Territory),
      selIdx ≠ clkIdx →
      g[selIdx]? = some sel →
      g[clkIdx]? = some tgtT →
      tgtT.wall = false →
      (0 ≤ 2 + towerRangeBonus sel ∧
       (sel.x - tgtT.x) * (sel.x - tgtT.x) + (sel.y - tgtT.y) * (sel.y - tgtT.y) ≤
         (2 + towerRangeBonus sel) * (2 + towerRangeBonus sel)) →
      ownerIs tgtT "player1" = false →
      0 < Int.fdiv sel.troops 2 →
      tgtT.troops * (1 + fortBonus tgtT) < Int.fdiv sel.troops 2 →
      (pageSecondClick g selIdx clkIdx pn)[clkIdx]?.map Territory.building = some none)
    ∧
    (∀ (g : List Territory) (p : AIPlayer) (src tgt s dfn : Territory) (i j : ℕ),
      findTerritoryIdx g src.x src.y = some i →
      findTerritoryIdx g tgt.x tgt.y = some j →
      i ≠ j →
      g[i]? = some s →
      g[j]? = some dfn →
      ownerIs s p.id = true →
      ¬ s.troops < 2 →
      dfn.troops < Int.fdiv (8 * s.troops) 10 →
      ((gsExecuteAction g ⟨.attack, some src, some tgt, none⟩ p).1)[j]?.map Territory.building =
        some dfn.building) := by
  refine ⟨?_, ?_, ?_⟩
  · intro g p src tgt atk dfn i j h1 h2 hij hga hgj hwin
    simp only [processAIAction, h1, h2, hga, hgj]
    rw [if_pos hwin]
    dsimp only
    constructor
    · intro hw
      rw [updAt_getElem?_ne hij _,
          updAt_getElem?_self (updAt_getElem?_self hgj _) _]
      cases hb : dfn.building <;> simp [hb, hw]
    · intro hw
      rw [updAt_getElem?_ne hij _,
          updAt_getElem?_self (updAt_getElem?_self hgj _) _]
      simp [hw]
  · intro g selIdx clkIdx pn sel tgtT hij hsel htgt hwall hrange hown hatk hwin
    simp only [pageSecondClick, hsel, htgt, hwall]
    rw [if_neg (by simp)]
    rw [if_pos hrange, if_neg (by simp [hown]), if_pos hatk, if_pos hwin]
    rw [updAt_getElem?_ne hij _]
    rw [updAt_getElem?_self
        (t := { tgtT with
                owner := some ⟨"player1", if pn = "" then "Player" else pn, "#e63946"⟩,
                troops := Int.fdiv sel.troops 2 - tgtT.troops })
        (by rw [updAt_getElem?_ne hij]
            exact updAt_getElem?_self htgt _) _]
    cases hb : tgtT.building <;> simp [hb]
  · intro g p src tgt s dfn i j h1 h2 hij hgi hgj hown htr hwin
    simp only [gsExecuteAction, h1, h2, hgi, hown, htr]
    rw [if_neg (show ¬ (true = false ∨ False) by simp)]
    have h1j : (updAt g i fun t => { t with troops := t.troops - Int.fdiv (8 * s.troops) 10 })[j]?
        = some dfn := by
      rw [updAt_getElem?_ne hij]; exact hgj
    simp only [h1j]
    rw [if_pos hwin]
    dsimp only
    rw [updAt_getElem?_self h1j _]
    rfl

/-- Claim C5 counterexample: A concrete successful capture through
`GameSimulator.executeAction` (source 10 troops, force 8, target 3 troops
with a farm): the attack succeeds and the owner changes, but the farm is
still standing afterwards, where the claim requires it destroyed. -/
theorem capture_building_destruction_ce :
    (3 < Int.fdiv (8 * 10) 10) ∧
    ((gsExecuteAction
        [⟨0, 0, some ⟨"p1", "P", "#111111"⟩, 10, none, false, false⟩,
         ⟨1, 0, some ⟨"e1", "E", "#222222"⟩, 3, some ⟨.farm, 1⟩, false, false⟩]
        ⟨.attack,
         some ⟨0, 0, some ⟨"p1", "P", "#111111"⟩, 10, none, false, false⟩,
         some ⟨1, 0, some ⟨"e1", "E", "#222222"⟩, 3, some ⟨.farm, 1⟩, false, false⟩,
         none⟩
        ⟨"p1", "P", "#111111", 0⟩).1)[1]? =
      some ⟨1, 0, some ⟨"p1", "P", "#111111"⟩, 5, some ⟨.farm, 1⟩, false, false⟩ := by
  constructor <;> decide

/-- Sample fortless target carrying a barracks, for the C5 witness. -/
def sampleBuiltTarget : Territory :=
  ⟨1, 0, some ⟨"e1", "E", "#222222"⟩, 3, some ⟨.barracks, 1⟩, false, false⟩

/-- Witness for the amended C5 theorem: all three conjuncts applied to a
concrete capture of a barracks-bearing cell. -/
theorem capture_building_destruction_amended_witness :
    ((processAIAction [sampleSource, sampleBuiltTarget]
        ⟨.attack, some sampleSource, some sampleBuiltTarget, none⟩ samplePlayer).1)[1]?.map
      Territory.building = some none ∧
    (pageSecondClick
        [⟨0, 0, some ⟨"player1", "Hero", "#e63946"⟩, 10, none, false, true⟩, sampleBuiltTarget]
        0 1 "Hero")[1]?.map Territory.building = some none ∧
    ((gsExecuteAction [sampleSource, sampleBuiltTarget]
        ⟨.attack, some sampleSource, some sampleBuiltTarget, none⟩ samplePlayer).1)[1]?.map
      Territory.building = some (some ⟨.barracks, 1⟩) := by
  refine ⟨?_, ?_, ?_⟩
  · exact (capture_building_destruction_amended.1 [sampleSource, sampleBuiltTarget]
      samplePlayer sampleSource sampleBuiltTarget sampleSource sampleBuiltTarget 0 1
      (by decide) (by decide) (by decide) (by decide) (by decide) (by decide)).1 (by decide)
  · exact capture_building_destruction_amended.2.1
      [⟨0, 0, some ⟨"player1", "Hero", "#e63946"⟩, 10, none, false, true⟩, sampleBuiltTarget]
      0 1 "Hero" ⟨0, 0, some ⟨"player1", "Hero", "#e63946"⟩, 10, none, false, true⟩
      sampleBuiltTarget (by decide) (by decide) (by decide) (by decide) (by decide)
      (by decide) (by decide) (by decide)
  · exact capture_building_destruction_amended.2.2 [sampleSource, sampleBuiltTarget]
      samplePlayer sampleSource sampleBuiltTarget sampleSource sampleBuiltTarget 0 1
      (by decide) (by decide) (by decide) (by decide) (by decide) (by decide) (by decide)
      (by decide)

theorem buildingCosts_pos (bt : BuildingType) : 80 ≤ buildingCosts bt := by
  cases bt <;> decide

/-- Claim C10: In both resolvers the building cost is deducted from the
acting player's gold before the placement checks run: when the target
coordinate resolves and the player can afford the building, a wall build
on an owned cell, or a non-wall build on a cell the player does not own,
returns the grid unchanged while still charging the full cost. -/
theorem build_gold_deducted_before_placement :
    (∀ (g : List Territory) (p : AIPlayer) (tgt t : Territory) (bt : BuildingType) (j : ℕ),
      findTerritoryIdx g tgt.x tgt.y = some j →
      g[j]? = some t →
      buildingCosts bt ≤ p.gold →
      ((bt = .wall ∧ t.owner ≠ none) ∨ (bt ≠ .wall ∧ ownerIs t p.id = false)) →
      processAIAction g ⟨.build, none, some tgt, some bt⟩ p =
        (g, { p with gold := p.gold - buildingCosts bt }))
    ∧
    (∀ (g : List Territory) (p : AIPlayer) (tgt t : Territory) (bt : BuildingType) (j : ℕ),
      findTerritoryIdx g tgt.x tgt.y = some j →
      g[j]? = some t →
      buildingCosts bt ≤ p.gold →
      ((bt = .wall ∧ t.owner ≠ none) ∨ (bt ≠ .wall ∧ ownerIs t p.id = false)) →
      gsExecuteAction g ⟨.build, none, some tgt, some bt⟩ p =
        (g, { p with gold := p.gold - buildingCosts bt })) := by
  have hgold : ∀ (p : AIPlayer) (bt : BuildingType),
      buildingCosts bt ≤ p.gold → p.gold ≠ 0 ∧ buildingCosts bt ≤ p.gold := by
    intro p bt h
    refine ⟨?_, h⟩
    have := buildingCosts_pos bt
    omega
  constructor
  · intro g p tgt t bt j hj hgt hc hplace
    simp only [processAIAction, hj]
    rw [if_pos (hgold p bt hc)]
    rcases hplace with ⟨hbw, hown⟩ | ⟨hbw, hown⟩
    · subst hbw
      rw [if_pos rfl]
      rw [updAt_congr_id]
      intro u hu
      rw [hgt] at hu
      cases hu
      rw [if_neg hown]
    · rw [if_neg hbw]
      rw [updAt_congr_id]
      intro u hu
      rw [hgt] at hu
      cases hu
      rw [if_neg (by simp [hown])]
  · intro g p tgt t bt j hj hgt hc hplace
    simp only [gsExecuteAction, hj]
    rw [if_neg (not_lt.mpr hc)]
    rcases hplace with ⟨hbw, hown⟩ | ⟨hbw, hown⟩
    · subst hbw
      rw [if_pos rfl]
      rw [updAt_congr_id]
      intro u hu
      rw [hgt] at hu
      cases hu
      rw [if_neg hown]
    · rw [if_neg hbw]
      rw [updAt_congr_id]
      intro u hu
      rw [hgt] at hu
      cases hu
      rw [if_neg (by simp [hown])]

/-- Sample cell owned by the enemy `e1`, for the C10 witness. -/
def sampleEnemyCell : Territory := ⟨0, 0, some ⟨"e1", "E", "#222222"⟩, 3, none, false, false⟩

/-- Witness for C10: a fort build on an enemy-owned cell and a wall build
on the same (owned) cell both leave the one-cell grid unchanged while the
cost is deducted. -/
theorem build_gold_deducted_before_placement_witness :
    processAIAction [sampleEnemyCell] ⟨.build, none, some sampleEnemyCell, some .fort⟩
        ⟨"p1", "P", "#111111", 100⟩ =
      ([sampleEnemyCell], ⟨"p1", "P", "#111111", 0⟩) ∧
    gsExecuteAction [sampleEnemyCell] ⟨.build, none, some sampleEnemyCell, some .wall⟩
        ⟨"p1", "P", "#111111", 100⟩ =
      ([sampleEnemyCell], ⟨"p1", "P", "#111111", 20⟩) := by
  constructor
  · exact build_gold_deducted_before_placement.1 [sampleEnemyCell]
      ⟨"p1", "P", "#111111", 100⟩ sampleEnemyCell sampleEnemyCell .fort 0
      (by decide) (by decide) (by decide) (Or.inr ⟨by decide, by decide⟩)
  · exact build_gold_deducted_before_placement.2 [sampleEnemyCell]
      ⟨"p1", "P", "#111111", 100⟩ sampleEnemyCell sampleEnemyCell .wall 0
      (by decide) (by decide) (by decide) (Or.inl ⟨rfl, by decide⟩)

/-- Claim C3 (amended): Both resolvers are total functions and reject the
following silently, returning the grid (and, except for charged builds,
the player) unchanged: builds the player cannot afford, wall builds on an
owned cell, and any action whose source or target coordinate matches no
territory.  Contrary to the original claim, a build on a territory that
already has a building is *not* rejected (the building is overwritten),
and an attack on a wall is *not* rejected (it is resolved as an ordinary
attack on a 0-troop cell). -/
theorem illegal_actions_noop_amended :
    (∀ (g : List Territory) (p : AIPlayer) (tgt : Territory) (bt : BuildingType),
      ¬ (p.gold ≠ 0 ∧ buildingCosts bt ≤ p.gold) →
      processAIAction g ⟨.build, none, some tgt, some bt⟩ p = (g, p)) ∧
    (∀ (g : List Territory) (p : AIPlayer) (tgt : Territory) (bt : BuildingType),
      p.gold < buildingCosts bt →
      gsExecuteAction g ⟨.build, none, some tgt, some bt⟩ p = (g, p)) ∧
    (∀ (g : List Territory) (p : AIPlayer) (tgt t : Territory) (j : ℕ) (o : TOwner),
      findTerritoryIdx g tgt.x tgt.y = some j →
      g[j]? = some t →
      t.owner = some o →
      (processAIAction g ⟨.build, none, some tgt, some .wall⟩ p).1 = g ∧
      (gsExecuteAction g ⟨.build, none, some tgt, some .wall⟩ p).1 = g) ∧
    (∀ (g : List Territory) (p : AIPlayer) (src tgt : Territory),
      (findTerritoryIdx g src.x src.y = none ∨ findTerritoryIdx g tgt.x tgt.y = none) →
      processAIAction g ⟨.attack, some src, some tgt, none⟩ p = (g, p) ∧
      gsExecuteAction g ⟨.attack, some src, some tgt, none⟩ p = (g, p)) ∧
    (∀ (g : List Territory) (p : AIPlayer) (tgt : Territory),
      findTerritoryIdx g tgt.x tgt.y = none →
      processAIAction g ⟨.defend, none, some tgt, none⟩ p = (g, p) ∧
      gsExecuteAction g ⟨.defend, none, some tgt, none⟩ p = (g, p)) ∧
    (∀ (g : List Territory) (p : AIPlayer) (tgt : Territory) (bt : BuildingType),
      findTerritoryIdx g tgt.x tgt.y = none →
      processAIAction g ⟨.build, none, some tgt, some bt⟩ p = (g, p) ∧
      gsExecuteAction g ⟨.build, none, some tgt, some bt⟩ p = (g, p)) := by
  refine ⟨?_, ?_, ?_, ?_, ?_, ?_⟩
  · intro g p tgt bt hpoor
    cases hj : findTerritoryIdx g tgt.x tgt.y <;>
      simp [processAIAction, hj, hpoor]
  · intro g p tgt bt hpoor
    cases hj : findTerritoryIdx g tgt.x tgt.y <;>
      simp [gsExecuteAction, hj, hpoor, not_le.mp, hpoor.not_le]
  · intro g p tgt t j o hj hgt hown
    have hupd : ∀ u : Territory, g[j]? = some u →
        (if u.owner = none then
          { u with wall := true,
                   owner := some (⟨p.id, p.name, p.color⟩ : TOwner),
                   troops := 0 }
         else u) = u := by
      intro u hu
      rw [hgt] at hu
      cases hu
      rw [if_neg (by simp [hown])]
    constructor
    · simp only [processAIAction, hj]
      by_cases hgold : p.gold ≠ 0 ∧ buildingCosts .wall ≤ p.gold
      · rw [if_pos hgold, if_pos trivial, updAt_congr_id hupd]
      · rw [if_neg hgold]
    · simp only [gsExecuteAction, hj]
      by_cases hgold : p.gold < buildingCosts .wall
      · rw [if_pos hgold]
      · rw [if_neg hgold, if_pos trivial, updAt_congr_id hupd]
  · intro g p src tgt h
    rcases h with h | h
    · constructor <;>
        · cases ht : findTerritoryIdx g tgt.x tgt.y <;>
            simp [processAIAction, gsExecuteAction, h, ht]
    · constructor <;>
        · cases hs : findTerritoryIdx g src.x src.y <;>
            simp [processAIAction, gsExecuteAction, h, hs]
  · intro g p tgt h
    exact ⟨by simp [processAIAction, h], by simp [gsExecuteAction, h]⟩
  · intro g p tgt bt h
    exact ⟨by simp [processAIAction, h], by simp [gsExecuteAction, h]⟩

/-- Claim C3 counterexample: A build on a territory that already has a
building is not rejected: on a one-cell grid owned by the acting player
with a level-1 fort and 200 gold, building a farm replaces the fort, so
the grid is not returned unchanged. -/
theorem illegal_actions_noop_ce :
    ((processAIAction
        [⟨0, 0, some ⟨"p1", "P", "#111111"⟩, 10, some ⟨.fort, 1⟩, false, false⟩]
        ⟨.build, none,
         some ⟨0, 0, some ⟨"p1", "P", "#111111"⟩, 10, some ⟨.fort, 1⟩, false, false⟩,
         some .farm⟩
        ⟨"p1", "P", "#111111", 200⟩).1)[0]?.map Territory.building =
      some (some ⟨.farm, 1⟩) ∧
    (processAIAction
        [⟨0, 0, some ⟨"p1", "P", "#111111"⟩, 10, some ⟨.fort, 1⟩, false, false⟩]
        ⟨.build, none,
         some ⟨0, 0, some ⟨"p1", "P", "#111111"⟩, 10, some ⟨.fort, 1⟩, false, false⟩,
         some .farm⟩
        ⟨"p1", "P", "#111111", 200⟩).1 ≠
      [⟨0, 0, some ⟨"p1", "P", "#111111"⟩, 10, some ⟨.fort, 1⟩, false, false⟩] := by
  constructor <;> decide

/-- Witness for the amended C3 theorem: an unaffordable build, a wall
build on an owned cell, and a defend aimed at a coordinate outside the
grid, all evaluated on concrete inputs. -/
theorem illegal_actions_noop_witness :
    processAIAction [sampleEnemyCell] ⟨.build, none, some sampleEnemyCell, some .market⟩
        ⟨"p1", "P", "#111111", 150⟩ = ([sampleEnemyCell], ⟨"p1", "P", "#111111", 150⟩) ∧
    (processAIAction [sampleEnemyCell] ⟨.build, none, some sampleEnemyCell, some .wall⟩
        ⟨"p1", "P", "#111111", 100⟩).1 = [sampleEnemyCell] ∧
    processAIAction [sampleEnemyCell]
        ⟨.defend, none, some ⟨9, 9, none, 0, none, false, false⟩, none⟩
        ⟨"p1", "P", "#111111", 100⟩ = ([sampleEnemyCell], ⟨"p1", "P", "#111111", 100⟩) := by
  refine ⟨?_, ?_, ?_⟩
  · exact illegal_actions_noop_amended.1 [sampleEnemyCell] ⟨"p1", "P", "#111111", 150⟩
      sampleEnemyCell .market (by decide)
  · exact (illegal_actions_noop_amended.2.2.1 [sampleEnemyCell] ⟨"p1", "P", "#111111", 100⟩
      sampleEnemyCell sampleEnemyCell 0 ⟨"e1", "E", "#222222"⟩
      (by decide) (by decide) (by decide)).1
  · exact (illegal_actions_noop_amended.2.2.2.2.1 [sampleEnemyCell]
      ⟨"p1", "P", "#111111", 100⟩ ⟨9, 9, none, 0, none, false, false⟩ (by decide)).1

/-- The per-cell wall invariant: a walled cell holds no building and no
troops. -/
def wallCellOK (t : Territory) : Prop :=
  t.wall = true → t.building = none ∧ t.troops = 0

/-- The grid-wide wall invariant of the spec:
`wall(T) ⟹ building(T) = none ∧ troops(T) = 0` for every territory. -/
def WallInv (g : List Territory) : Prop :=
  ∀ t ∈ g, wallCellOK t

theorem wallInv_updAt {g : List Territory} {i : ℕ} {f : Territory → Territory}
    (hg : WallInv g) (hf : ∀ t, g[i]? = some t → wallCellOK (f t)) :
    WallInv (updAt g i f) := by
  unfold updAt
  cases ht : g[i]? with
  | none => exact hg
  | some t =>
    intro u hu
    rcases List.mem_or_eq_of_mem_set hu with hmem | rfl
    · exact hg u hmem
    · exact hf t ht

/-- Claim C4 (amended): `processAIAction` preserves the wall invariant for
every decision whose resolved target cell is not a wall and, when the
decision builds a wall, holds no building.  (As stated, over *every*
operation, the claim fails: the resolver never re-checks wall flags, so an
attack or defend aimed at a wall cell gives it troops — see the
counterexample.) -/
theorem wall_invariant_amended :
    ∀ (g : List Territory) (d : Decision) (p : AIPlayer),
      WallInv g →
      (∀ tt j t, d.target = some tt →
        findTerritoryIdx g tt.x tt.y = some j →
        g[j]? = some t →
        t.wall = false ∧ (d.buildingType = some .wall → t.building = none)) →
      WallInv (processAIAction g d p).1 := by
  intro g d p hInv hTgt
  obtain ⟨act, src?, tgt?, bt?⟩ := d
  cases act
  case attack =>
    cases src? with
    | none => exact hInv
    | some src =>
      cases tgt? with
      | none => exact hInv
      | some tgt =>
        cases hfs : findTerritoryIdx g src.x src.y with
        | none => simpa [processAIAction, hfs] using hInv
        | some ai =>
          cases hts : findTerritoryIdx g tgt.x tgt.y with
          | none => simpa [processAIAction, hfs, hts] using hInv
          | some ti =>
            cases hga : g[ai]? with
            | none => simpa [processAIAction, hfs, hts, hga] using hInv
            | some atk =>
              cases hgj : g[ti]? with
              | none => simpa [processAIAction, hfs, hts, hga, hgj] using hInv
              | some dfn =>
                obtain ⟨hw, -⟩ := hTgt tgt ti dfn rfl hts hgj
                simp only [processAIAction, hfs, hts, hga, hgj]
                by_cases hwin :
                    dfn.troops * (1 + fortBonus dfn) < Int.fdiv (7 * atk.troops) 10
                · rw [if_pos hwin]
                  dsimp only
                  have hInv1 : WallInv (updAt g ti fun t =>
                      { t with owner := some ⟨p.id, p.name, p.color⟩,
                               troops := Int.fdiv (7 * atk.troops) 10 - t.troops }) := by
                    refine wallInv_updAt hInv ?_
                    intro t ht hwall
                    rw [hgj] at ht; cases ht
                    simp [hw] at hwall
                  have hInv2 : WallInv (updAt (updAt g ti fun t =>
                      { t with owner := some ⟨p.id, p.name, p.color⟩,
                               troops := Int.fdiv (7 * atk.troops) 10 - t.troops }) ti
                      fun t => if t.building.isSome && !t.wall then
                                 { t with building := none } else t) := by
                    refine wallInv_updAt hInv1 ?_
                    intro t ht hwall
                    rw [updAt_getElem?_self hgj _] at ht; cases ht
                    cases hbs : dfn.building <;> simp [hbs, hw] at hwall
                  refine wallInv_updAt hInv2 ?_
                  intro t ht hwall
                  by_cases heq : ai = ti
                  · subst heq
                    rw [updAt_getElem?_self (updAt_getElem?_self hgj _) _] at ht
                    cases ht
                    cases hbs : dfn.building <;> simp [hbs, hw] at hwall
                  · rw [updAt_getElem?_ne (fun h => heq h.symm) _,
                        updAt_getElem?_ne (fun h => heq h.symm) _] at ht
                    rw [hga] at ht; cases ht
                    have hwt : atk.wall = true := by simpa using hwall
                    obtain ⟨hb0, ht0⟩ := hInv atk (List.getElem?_mem hga) hwt
                    constructor
                    · simpa using hb0
                    · simp [ht0]
                · rw [if_neg hwin]
                  dsimp only
                  have hInv1 : WallInv (updAt g ti fun t =>
                      { t with troops := t.troops -
                          Int.fdiv (Int.fdiv (7 * atk.troops) 10) (1 + fortBonus dfn) }) := by
                    refine wallInv_updAt hInv ?_
                    intro t ht hwall
                    rw [hgj] at ht; cases ht
                    simp [hw] at hwall
                  refine wallInv_updAt hInv1 ?_
                  intro t ht hwall
                  by_cases heq : ai = ti
                  · subst heq
                    rw [updAt_getElem?_self hgj _] at ht; cases ht
                    simp [hw] at hwall
                  · rw [updAt_getElem?_ne (fun h => heq h.symm) _] at ht
                    rw [hga] at ht; cases ht
                    have hwt : atk.wall = true := by simpa using hwall
                    obtain ⟨hb0, ht0⟩ := hInv atk (List.getElem?_mem hga) hwt
                    constructor
                    · simpa using hb0
                    · simp [ht0]
  case defend =>
    cases tgt? with
    | none => exact hInv
    | some tgt =>
      cases hts : findTerritoryIdx g tgt.x tgt.y with
      | none => simpa [processAIAction, hts] using hInv
      | some di =>
        simp only [processAIAction, hts]
        cases hgd : g[di]? with
        | none =>
          unfold updAt
          rw [hgd]
          exact hInv
        | some t =>
          obtain ⟨hw, -⟩ := hTgt tgt di t rfl hts hgd
          refine wallInv_updAt hInv ?_
          intro u hu hwall
          rw [hgd] at hu; cases hu
          simp [hw] at hwall
  case build =>
    cases tgt? with
    | none => exact hInv
    | some tgt =>
      cases bt? with
      | none => exact hInv
      | some bt =>
        cases hts : findTerritoryIdx g tgt.x tgt.y with
        | none => simpa [processAIAction, hts] using hInv
        | some bi =>
          simp only [processAIAction, hts]
          by_cases hgold : p.gold ≠ 0 ∧ buildingCosts bt ≤ p.gold
          · rw [if_pos hgold]
            by_cases hbw : bt = .wall
            · subst hbw
              rw [if_pos rfl]
              dsimp only
              refine wallInv_updAt hInv ?_
              intro t ht hwall
              obtain ⟨hw, hb⟩ := hTgt tgt bi t rfl hts ht
              by_cases hown : t.owner = none
              · rw [if_pos hown]
                exact ⟨by simpa using hb rfl, rfl⟩
              · rw [if_neg hown] at hwall ⊢
                simp [hw] at hwall
            · rw [if_neg hbw]
              dsimp only
              refine wallInv_updAt hInv ?_
              intro t ht hwall
              obtain ⟨hw, -⟩ := hTgt tgt bi t rfl hts ht
              rcases Bool.eq_false_or_eq_true (ownerIs t p.id) with ho | ho <;>
                simp [ho, hw] at hwall
          · rw [if_neg hgold]
            exact hInv

/-- Claim C4 counterexample: The grid `[wall cell at (0,0)]` satisfies the
wall invariant, yet a defend decision aimed at the wall cell (which the
resolver does not reject) adds 5 troops to it, breaking the invariant. -/
theorem wall_invariant_ce :
    WallInv [⟨0, 0, some ⟨"e1", "E", "#222222"⟩, 0, none, true, false⟩] ∧
    ¬ WallInv (processAIAction
        [⟨0, 0, some ⟨"e1", "E", "#222222"⟩, 0, none, true, false⟩]
        ⟨.defend, none, some ⟨0, 0, some ⟨"e1", "E", "#222222"⟩, 0, none, true, false⟩, none⟩
        ⟨"p1", "P", "#111111", 0⟩).1 := by
  constructor
  · intro t ht
    simp only [List.mem_singleton] at ht
    subst ht
    intro _
    exact ⟨rfl, rfl⟩
  · intro h
    have := h ⟨0, 0, some ⟨"e1", "E", "#222222"⟩, 5, none, true, false⟩ (by decide) rfl
    simp at this

/-- Witness for the amended C4 theorem: a defend on an ordinary cell of a
grid containing a wall preserves the invariant. -/
theorem wall_invariant_amended_witness :
    WallInv (processAIAction
        [⟨0, 0, some ⟨"e1", "E", "#222222"⟩, 0, none, true, false⟩,
         ⟨1, 0, some ⟨"p1", "P", "#111111"⟩, 10, none, false, false⟩]
        ⟨.defend, none, some ⟨1, 0, some ⟨"p1", "P", "#111111"⟩, 10, none, false, false⟩, none⟩
        ⟨"p1", "P", "#111111", 0⟩).1 := by
  refine wall_invariant_amended _ _ _ ?_ ?_
  · intro t ht
    simp only [List.mem_cons, List.mem_singleton] at ht
    rcases ht with rfl | rfl | h
    · intro _; exact ⟨rfl, rfl⟩
    · intro h; cases h
    · cases h
  · intro tt j t htt hj hgt
    cases htt
    have hj1 : j = 1 := by
      have : findTerritoryIdx
          [⟨0, 0, some ⟨"e1", "E", "#222222"⟩, 0, none, true, false⟩,
           ⟨1, 0, some ⟨"p1", "P", "#111111"⟩, 10, none, false, false⟩]
          (1 : ℤ) 0 = some 1 := by decide
      rw [this] at hj
      exact (Option.some.injEq _ _).mp hj.symm
    subst hj1
    have : t = ⟨1, 0, some ⟨"p1", "P", "#111111"⟩, 10, none, false, false⟩ := by
      simp only [List.getElem?_cons_succ, List.getElem?_cons_zero,
        Option.some.injEq] at hgt
      exact hgt.symm
    subst this
    exact ⟨rfl, by intro h; cases h⟩

/-! ## Epsilon decay -/

theorem epsDecay_nonneg : (0 : ℚ) ≤ epsilonDecay := by norm_num [epsilonDecay]

theorem epsDecay_le_one : epsilonDecay ≤ (1 : ℚ) := by norm_num [epsilonDecay]

theorem epsMin_lt_pow459 : epsilonMin < epsilonDecay ^ 459 := by
  unfold epsilonMin epsilonDecay
  rw [div_pow, div_lt_div_iff (by norm_num) (by positivity)]
  norm_num

theorem pow460_lt_epsMin : epsilonDecay ^ 460 < epsilonMin := by
  unfold epsilonMin epsilonDecay
  rw [div_pow, div_lt_div_iff (by positivity) (by norm_num)]
  norm_num

theorem epsMin_lt_pow {k : ℕ} (hk : k ≤ 459) : epsilonMin < epsilonDecay ^ k :=
  lt_of_lt_of_le epsMin_lt_pow459
    (pow_le_pow_of_le_one epsDecay_nonneg epsDecay_le_one hk)

theorem epsilonAfter_eq_pow {n : ℕ} (hn : n ≤ 460) :
    epsilonAfter n = epsilonDecay ^ n := by
  induction n with
  | zero => simp [epsilonAfter]
  | succ m ih =>
    simp only [epsilonAfter]
    rw [ih (by omega), if_pos (epsMin_lt_pow (by omega)), pow_succ]

theorem epsilonAfter_stall (m : ℕ) : epsilonAfter (460 + m) = epsilonDecay ^ 460 := by
  induction m with
  | zero => exact epsilonAfter_eq_pow (le_refl 460)
  | succ k ih =>
    show epsilonAfter ((460 + k) + 1) = _
    simp only [epsilonAfter]
    rw [ih, if_neg (not_lt.mpr (le_of_lt pow460_lt_epsMin))]

/-- Claim C7 (amended): After `N` completed batch updates the exploration
rate equals `0.995 ^ min N 460`: the decay `epsilon *= 0.995` runs only
while `epsilon > 0.1` and the code never clamps the value up to the floor,
so epsilon coincides with `max(0.1, 0.995^N)` only for `N ≤ 459`; from the
460th update on it stays frozen at `0.995^460 ≈ 0.0997 < 0.1`. -/
theorem epsilon_after_updates_amended (n : ℕ) :
    epsilonAfter n = epsilonDecay ^ min n 460 := by
  by_cases h : n ≤ 460
  · rw [min_eq_left h, epsilonAfter_eq_pow h]
  · push_neg at h
    obtain ⟨m, rfl⟩ : ∃ m, n = 460 + m := ⟨n - 460, by omega⟩
    rw [min_eq_right (by omega), epsilonAfter_stall]

/-- Claim C7 counterexample: After exactly 460 completed batch updates the
code's epsilon is `0.995^460 < 0.1`, while the claimed formula
`max(0.1, 1.0 × 0.995^460)` evaluates to `0.1`. -/
theorem epsilon_after_updates_ce :
    epsilonAfter 460 ≠ max epsilonMin (1 * epsilonDecay ^ 460) := by
  rw [epsilonAfter_eq_pow (le_refl 460), one_mul,
      max_eq_left (le_of_lt pow460_lt_epsMin)]
  exact ne_of_lt pow460_lt_epsMin

/-! ## Replay buffer -/

theorem addExperience_length_le {mem : List Experience} (e : Experience)
    (h : mem.length ≤ replayMemorySize) :
    (addExperience mem e).length ≤ replayMemorySize := by
  unfold addExperience
  by_cases hl : replayMemorySize < (mem ++ [e]).length
  · rw [if_pos hl]
    simp only [List.length_tail, List.length_append, List.length_singleton]
    omega
  · rw [if_neg hl]
    exact not_lt.mp hl

theorem foldl_addExperience_length (es : List Experience) :
    ∀ mem : List Experience, mem.length ≤ replayMemorySize →
      (es.foldl addExperience mem).length ≤ replayMemorySize := by
  induction es with
  | nil => intro mem h; exact h
  | cons e es ih => intro mem h; exact ih _ (addExperience_length_le e h)

theorem addExperience_of_lt {mem : List Experience} (e : Experience)
    (h : mem.length < replayMemorySize) :
    addExperience mem e = mem ++ [e] := by
  unfold addExperience
  rw [if_neg (by simp only [List.length_append, List.length_singleton]; omega)]

theorem addExperience_of_full {mem : List Experience} (e : Experience)
    (h : mem.length = replayMemorySize) :
    addExperience mem e = mem.tail ++ [e] := by
  have hcond : replayMemorySize < (mem ++ [e]).length := by
    simp only [List.length_append, List.length_singleton]
    omega
  have hne : mem ≠ [] := by
    intro hnil
    rw [hnil] at h
    simp [replayMemorySize] at h
  unfold addExperience
  rw [if_pos hcond, List.tail_append_of_ne_nil hne]

theorem foldl_addExperience_fill (es : List Experience) :
    ∀ mem : List Experience, mem.length + es.length ≤ replayMemorySize →
      es.foldl addExperience mem = mem ++ es := by
  induction es with
  | nil => intro mem h; simp
  | cons e es ih =>
    intro mem h
    simp only [List.length_cons] at h
    rw [List.foldl_cons, addExperience_of_lt e (by omega),
        ih _ (by simp only [List.length_append, List.length_singleton]; omega)]
    simp

/-- Claim C8: Starting from an empty buffer, after any sequence of
`addExperience` calls the replay buffer's length never exceeds the fixed
capacity 10000, and after capacity + 1 insertions the first-inserted
experience (if not re-inserted later) is no longer in the buffer. -/
theorem replay_buffer_capacity_and_fifo :
    (∀ es : List Experience, (es.foldl addExperience []).length ≤ replayMemorySize) ∧
    (∀ (e : Experience) (es : List Experience),
      es.length = replayMemorySize → e ∉ es →
      e ∉ (e :: es).foldl addExperience []) := by
  constructor
  · intro es
    exact foldl_addExperience_length es [] (by simp [replayMemorySize])
  · intro e es hlen hnot
    rw [List.foldl_cons,
        addExperience_of_lt e (by simp [replayMemorySize]), List.nil_append]
    rcases List.eq_nil_or_concat es with rfl | ⟨front, last, rfl⟩
    · simp [replayMemorySize] at hlen
    · simp only [List.concat_eq_append] at hlen hnot ⊢
      simp only [List.length_append, List.length_singleton] at hlen
      have hfill : [e].length + front.length ≤ replayMemorySize := by
        simp only [List.length_singleton]
        simp only [replayMemorySize] at hlen ⊢
        omega
      have hfull : ([e] ++ front).length = replayMemorySize := by
        simp only [List.length_append, List.length_singleton]
        omega
      rw [List.foldl_append, foldl_addExperience_fill front [e] hfill,
          List.foldl_cons, List.foldl_nil, addExperience_of_full last hfull]
      simp only [List.singleton_append, List.tail_cons]
      exact hnot

/-- A distinguishable experience record carrying its index as the reward. -/
def mkExp (i : ℕ) : Experience := ⟨[], [], (i : ℚ), [], false⟩

/-- Witness for C8: inserting experiences `0, …, 10000` (10001 records)
evicts the first one. -/
theorem replay_buffer_capacity_and_fifo_witness :
    mkExp replayMemorySize ∉
      (mkExp replayMemorySize :: (List.range replayMemorySize).map mkExp).foldl
        addExperience [] := by
  apply replay_buffer_capacity_and_fifo.2
  · simp
  · intro h
    simp only [List.mem_map, List.mem_range] at h
    obtain ⟨i, hi, hEq⟩ := h
    have hc : (i : ℚ) = (replayMemorySize : ℚ) := congrArg Experience.reward hEq
    have : i = replayMemorySize := by exact_mod_cast hc
    omega

/-! ## Reward -/

/-- A concrete before-state for the C9 example: 3 owned territories with
30 troops total, one building, 100 gold. -/
def rewardExamplePrev : SimState :=
  ⟨[⟨0, 0, some ⟨"p1", "P", "#111111"⟩, 10, some ⟨.barracks, 1⟩, false, false⟩,
    ⟨1, 0, some ⟨"p1", "P", "#111111"⟩, 10, none, false, false⟩,
    ⟨2, 0, some ⟨"p1", "P", "#111111"⟩, 10, none, false, false⟩,
    ⟨3, 0, some ⟨"e1", "E", "#222222"⟩, 5, none, false, false⟩,
    ⟨4, 0, some ⟨"e1", "E", "#222222"⟩, 5, none, false, false⟩],
   ⟨"p1", "P", "#111111", 100⟩⟩

/-- The matching after-state: 5 owned territories (Δ = +2), 20 troops
(Δ = −10), two buildings (Δ = +1), 150 gold (Δ = +50). -/
def rewardExampleCur : SimState :=
  ⟨[⟨0, 0, some ⟨"p1", "P", "#111111"⟩, 5, some ⟨.barracks, 1⟩, false, false⟩,
    ⟨1, 0, some ⟨"p1", "P", "#111111"⟩, 5, some ⟨.farm, 1⟩, false, false⟩,
    ⟨2, 0, some ⟨"p1", "P", "#111111"⟩, 4, none, false, false⟩,
    ⟨3, 0, some ⟨"p1", "P", "#111111"⟩, 3, none, false, false⟩,
    ⟨4, 0, some ⟨"p1", "P", "#111111"⟩, 3, none, false, false⟩],
   ⟨"p1", "P", "#111111", 150⟩⟩

/-- Claim C9: `calculateReward` returns
`10·Δterritories + 0.1·Δgold + 0.5·Δtroops + 5·Δbuildings`; the one-time
`+100` episode bonus is added to the episode total exactly when the agent
ends as the winner; and the concrete transition gaining 2 territories and
50 gold, losing 10 troops and adding 1 building yields reward 25. -/
theorem reward_formula_and_example :
    (∀ prevState currentState : SimState,
      calculateReward prevState currentState =
        10 * ((territoryCountOf currentState - territoryCountOf prevState : ℤ) : ℚ) +
        (1 / 10) * ((currentState.player.gold - prevState.player.gold : ℤ) : ℚ) +
        (1 / 2) * ((troopCountOf currentState - troopCountOf prevState : ℤ) : ℚ) +
        5 * ((buildingCountOf currentState - buildingCountOf prevState : ℤ) : ℚ)) ∧
    (∀ stepRewards : List ℚ,
      runEpisodeTotalReward stepRewards true =
        runEpisodeTotalReward stepRewards false + 100) ∧
    calculateReward rewardExamplePrev rewardExampleCur = 25 := by
  have hformula : ∀ prevState currentState : SimState,
      calculateReward prevState currentState =
        10 * ((territoryCountOf currentState - territoryCountOf prevState : ℤ) : ℚ) +
        (1 / 10) * ((currentState.player.gold - prevState.player.gold : ℤ) : ℚ) +
        (1 / 2) * ((troopCountOf currentState - troopCountOf prevState : ℤ) : ℚ) +
        5 * ((buildingCountOf currentState - buildingCountOf prevState : ℤ) : ℚ) := by
    intro prevState currentState
    simp only [calculateReward]
    push_cast
    ring
  refine ⟨hformula, ?_, ?_⟩
  · intro stepRewards
    simp [runEpisodeTotalReward]
  · rw [hformula]
    have h1 : territoryCountOf rewardExampleCur = 5 := by decide
    have h2 : territoryCountOf rewardExamplePrev = 3 := by decide
    have h3 : troopCountOf rewardExampleCur = 20 := by decide
    have h4 : troopCountOf rewardExamplePrev = 30 := by decide
    have h5 : buildingCountOf rewardExampleCur = 2 := by decide
    have h6 : buildingCountOf rewardExamplePrev = 1 := by decide
    have h7 : rewardExampleCur.player.gold = 150 := rfl
    have h8 : rewardExamplePrev.player.gold = 100 := rfl
    rw [h1, h2, h3, h4, h5, h6, h7, h8]
    norm_num

/-! ## Legal-action enumeration -/

/-- Claim C6: Every Attack enumerated by `getLegalActions` has a source with
at least 5 troops strictly exceeding the target's troops, and its target
is a non-wall territory not owned by the acting player. -/
theorem legal_attacks_sound :
    ∀ (g : List Territory) (p : AIPlayer) (d : Decision),
      d ∈ getLegalActions g p →
      d.action = .attack →
      ∃ source target : Territory,
        d.source = some source ∧ d.target = some target ∧
        5 ≤ source.troops ∧ target.troops < source.troops ∧
        target.wall = false ∧ ownerIs target p.id = false := by
  intro g p d hmem hact
  simp only [getLegalActions, List.mem_append] at hmem
  rcases hmem with (hmem | hmem) | hmem
  · -- attack section
    simp only [List.mem_flatMap] at hmem
    obtain ⟨source, hsrc, hin⟩ := hmem
    by_cases h5 : source.troops < 5
    · rw [if_pos h5] at hin
      simp at hin
    · rw [if_neg h5] at hin
      simp only [List.mem_filterMap] at hin
      obtain ⟨target, htgt, hf⟩ := hin
      by_cases ho : ownerIs target p.id = true
      · rw [if_pos ho] at hf; cases hf
      · rw [if_neg ho] at hf
        by_cases hwall : target.wall = true
        · rw [if_pos hwall] at hf; cases hf
        · rw [if_neg hwall] at hf
          by_cases hlt : target.troops < source.troops
          · rw [if_pos hlt] at hf
            cases hf
            exact ⟨source, target, rfl, rfl, not_lt.mp h5, hlt,
                   Bool.not_eq_true _ ▸ (eq_false_of_ne_true hwall),
                   eq_false_of_ne_true ho⟩
          · rw [if_neg hlt] at hf; cases hf
  · -- defend section
    simp only [List.mem_map] at hmem
    obtain ⟨t, -, hd⟩ := hmem
    rw [← hd] at hact
    cases hact
  · -- build section
    by_cases hg : 80 ≤ p.gold
    · rw [if_pos hg] at hmem
      rcases List.mem_append.mp hmem with hmem | hmem
      · simp only [List.mem_flatMap, List.mem_filterMap] at hmem
        obtain ⟨t, -, bc, -, hf⟩ := hmem
        by_cases h1 : p.gold < bc.2
        · rw [if_pos h1] at hf; cases hf
        · rw [if_neg h1] at hf
          by_cases h2 : bc.1 = .wall
          · rw [if_pos h2] at hf; cases hf
          · rw [if_neg h2] at hf
            cases hf
            cases hact
      · by_cases hg2 : 80 ≤ p.gold
        · rw [if_pos hg2] at hmem
          simp only [List.mem_map] at hmem
          obtain ⟨t, -, hd⟩ := hmem
          rw [← hd] at hact
          cases hact
        · rw [if_neg hg2] at hmem
          cases hmem
    · rw [if_neg hg] at hmem
      cases hmem

/-- Witness for C6: on a two-cell grid the enumerated attack from the
10-troop owned cell onto the 3-troop enemy cell satisfies all the stated
bounds. -/
theorem legal_attacks_sound_witness :
    ∃ source target : Territory,
      (⟨.attack, some sampleSource, some sampleTarget, none⟩ : Decision).source = some source ∧
      (⟨.attack, some sampleSource, some sampleTarget, none⟩ : Decision).target = some target ∧
      5 ≤ source.troops ∧ target.troops < source.troops ∧
      target.wall = false ∧ ownerIs target "p1" = false :=
  legal_attacks_sound [sampleSource, sampleTarget] samplePlayer
    ⟨.attack, some sampleSource, some sampleTarget, none⟩ (by decide) rfl

end OpenFront
